import Mathlib

/-!
Shallow embedding of the `memory_pool` repository: the size-class helpers
(`src/include/Common.h`), the central cache (`src/src/CentralCache.cpp`) and
the page cache (`src/src/PageCache.cpp`), together with theorems settling the
specification claims about them.
-/

namespace MemoryPoolSpec

/-! ## Constants (src/include/Common.h, PageCache.h, CentralCache.cpp) -/

def ALIGNMENT : Nat := 8

def MAX_BYTES : Nat := 256 * 1024

def FREE_LIST_SIZE : Nat := MAX_BYTES / ALIGNMENT

def PAGE_SIZE : Nat := 4096

def SPAN_PAGES : Nat := 8

/-! ## SizeClass (src/include/Common.h)

`size_t` is 64-bit; the C expression `~(ALIGNMENT - 1)` evaluated on `size_t`
is `2^64 - ALIGNMENT`, and `bytes + ALIGNMENT - 1` is computed mod `2^64`. -/

/-- Model of `SizeClass::roundUp`: `(bytes + ALIGNMENT - 1) & ~(ALIGNMENT - 1)` on `size_t`. -/
def roundUp (bytes : Nat) : Nat :=
  ((bytes + (ALIGNMENT - 1)) % 2 ^ 64) &&& (2 ^ 64 - ALIGNMENT)

/-- Model of `SizeClass::getIndex`: `bytes = max(bytes, ALIGNMENT); (bytes + ALIGNMENT - 1) / ALIGNMENT - 1`. -/
def getIndex (bytes : Nat) : Nat :=
  (max bytes ALIGNMENT + ALIGNMENT - 1) / ALIGNMENT - 1

/-- Masking a 64-bit value with `2^64 - 8` (the `size_t` value of `~7`) clears the
low three bits: it equals `8 * (n / 8)`. -/
lemma land_mask64 (n : Nat) (h : n < 2 ^ 64) : n &&& (2 ^ 64 - 8) = 8 * (n / 8) := by
  have hmask : (2 ^ 64 - 8 : Nat) = (2 ^ 61 - 1) <<< 3 := by
    rw [Nat.shiftLeft_eq]
    norm_num
  have hrhs : 8 * (n / 8) = (n >>> 3) <<< 3 := by
    rw [Nat.shiftLeft_eq, Nat.shiftRight_eq_div_pow]
    norm_num [Nat.mul_comm]
  rw [hmask, hrhs]
  apply Nat.eq_of_testBit_eq
  intro i
  rw [Nat.testBit_land, Nat.testBit_shiftLeft, Nat.testBit_shiftLeft,
    Nat.testBit_shiftRight]
  rcases Nat.lt_or_ge i 3 with hi | hi
  · simp [Nat.not_le_of_lt hi]
  · rcases Nat.lt_or_ge i 64 with hi64 | hi64
    · have : Nat.testBit (2 ^ 61 - 1) (i - 3) = true := by
        rw [Nat.testBit_two_pow_sub_one]
        simp only [decide_eq_true_eq]
        omega
      have h3i : 3 + (i - 3) = i := by omega
      have hdec : decide (3 ≤ i) = true := by simp [hi]
      simp only [this, h3i, hdec, Bool.true_and, Bool.and_true]
    · have hn : Nat.testBit n i = false :=
        Nat.testBit_eq_false_of_lt (lt_of_lt_of_le h (Nat.pow_le_pow_right (by norm_num) hi64))
      have hm : Nat.testBit (2 ^ 61 - 1) (i - 3) = false := by
        rw [Nat.testBit_two_pow_sub_one]
        simp only [decide_eq_false_iff_not]
        omega
      have h3i : 3 + (i - 3) = i := by omega
      simp only [hn, hm, h3i, Bool.and_false, Bool.false_and]

/-- C1: for every byte request `s` with `0 < s ≤ MAX_BYTES`, the size-class helpers
agree: `roundUp s = (getIndex s + 1) * 8`, and `roundUp s ≥ s`. -/
theorem C1_sizeclass_agree (s : Nat) (h1 : 0 < s) (h2 : s ≤ MAX_BYTES) :
    roundUp s = (getIndex s + 1) * 8 ∧ s ≤ roundUp s := by
  have hM : MAX_BYTES = 262144 := by norm_num [MAX_BYTES]
  rw [hM] at h2
  have hlt : s + 7 < 2 ^ 64 := by
    have : (262144 + 7 : Nat) < 2 ^ 64 := by norm_num
    omega
  have hru : roundUp s = 8 * ((s + 7) / 8) := by
    show ((s + (8 - 1)) % 2 ^ 64) &&& (2 ^ 64 - 8) = 8 * ((s + 7) / 8)
    rw [Nat.mod_eq_of_lt (by omega)]
    exact land_mask64 (s + 7) (by omega)
  have hgi : getIndex s = (max s 8 + 8 - 1) / 8 - 1 := rfl
  rw [hru, hgi]
  omega

/-- Witness for C1 at `s = 20`: `roundUp 20 = 24 = (getIndex 20 + 1) * 8`. -/
theorem C1_sizeclass_agree_witness :
    roundUp 20 = (getIndex 20 + 1) * 8 ∧ 20 ≤ roundUp 20 :=
  C1_sizeclass_agree 20 (by decide) (by norm_num [MAX_BYTES])

/-! ## CentralCache (src/src/CentralCache.cpp)

Raw memory is modelled as a word map `Nat → Nat` from byte addresses to the
machine word stored there: `*reinterpret_cast<void**>(p)` reads or writes the
word at address `p`, and the null pointer is `0`.  The array
`centralFreeList_` is a map from class index to head address.  The per-class
spin lock is modelled by trace flags on the result: whether the lock was
acquired during the call and whether it was cleared again before returning
(the source clears the flag on every return path).  The nested call
`fetchFromPageCache(size)` is modelled by an oracle argument `pageAlloc`
giving the address the page layer returns (`none` for a null return). -/

abbrev Mem := Nat → Nat

def writeWord (a v : Nat) (m : Mem) : Mem := fun x => if x = a then v else m x

def setIdx (f : Nat → Nat) (i v : Nat) : Nat → Nat := fun j => if j = i then v else f j

structure CentralState where
  centralFreeList : Nat → Nat
  mem : Mem

structure FetchResult where
  result : Nat
  state : CentralState
  lockAcquired : Bool
  lockReleased : Bool

/-- The block-linking loops of `fetchRange`: for `c` iterations with loop
counter starting at `i`, execute `*(start + (i-1)*size) = start + i*size`. -/
def linkBlocks (start sz : Nat) : Nat → Nat → Mem → Mem
  | _, 0, m => m
  | i, c + 1, m =>
    linkBlocks start sz (i + 1) c (writeWord (start + (i - 1) * sz) (start + i * sz) m)

/-- The walk of the nonempty-list branch of `fetchRange`:
`while (current && count < batchNum) { prev = current; current = *current; count++; }`,
returning `(prev, current)`; the fuel argument is `batchNum - count`. -/
def splitWalk (m : Mem) : Nat → Nat → Nat → Nat × Nat
  | prev, cur, 0 => (prev, cur)
  | prev, cur, n + 1 => if cur = 0 then (prev, cur) else splitWalk m cur (m cur) n

/-- The memory effect of the caller-list loop in the refill branch: when
`allocBlocks > 1`, link blocks `0 … allocBlocks-1` and null-terminate the
last; otherwise no write at all. -/
def refillMemAlloc (start size ab : Nat) (m : Mem) : Mem :=
  if 1 < ab then
    writeWord (start + (ab - 1) * size) 0 (linkBlocks start size 1 (ab - 1) m)
  else m

/-- The memory effect of the remaining-list loop in the refill branch
(executed only when `totalBlocks > allocBlocks`): link blocks
`allocBlocks … totalBlocks-1` and null-terminate the last. -/
def refillMemRemain (start size ab tb : Nat) (m : Mem) : Mem :=
  writeWord (start + (tb - 1) * size) 0 (linkBlocks start size (ab + 1) (tb - 1 - ab) m)

/-- The refill branch of `CentralCache::fetchRange` (central list empty, page
cache returned address `start`).  Here `(index + 1) * ALIGNMENT` is `size`,
`SPAN_PAGES * PAGE_SIZE / size` is `totalBlocks` and
`min batchNum totalBlocks` is `allocBlocks`, written out in full. -/
def refillFromPage (index batchNum start : Nat) (s : CentralState) : FetchResult :=
  if min batchNum (SPAN_PAGES * PAGE_SIZE / ((index + 1) * ALIGNMENT)) <
      SPAN_PAGES * PAGE_SIZE / ((index + 1) * ALIGNMENT) then
    ⟨start,
      ⟨setIdx s.centralFreeList index
          (start + min batchNum (SPAN_PAGES * PAGE_SIZE / ((index + 1) * ALIGNMENT)) *
            ((index + 1) * ALIGNMENT)),
        refillMemRemain start ((index + 1) * ALIGNMENT)
          (min batchNum (SPAN_PAGES * PAGE_SIZE / ((index + 1) * ALIGNMENT)))
          (SPAN_PAGES * PAGE_SIZE / ((index + 1) * ALIGNMENT))
          (refillMemAlloc start ((index + 1) * ALIGNMENT)
            (min batchNum (SPAN_PAGES * PAGE_SIZE / ((index + 1) * ALIGNMENT))) s.mem)⟩,
      true, true⟩
  else
    ⟨start,
      ⟨s.centralFreeList,
        refillMemAlloc start ((index + 1) * ALIGNMENT)
          (min batchNum (SPAN_PAGES * PAGE_SIZE / ((index + 1) * ALIGNMENT))) s.mem⟩,
      true, true⟩

/-- Model of `CentralCache::fetchRange` (CentralCache.cpp lines 17–113). -/
def fetchRange (index batchNum : Nat) (pageAlloc : Option Nat) (s : CentralState) :
    FetchResult :=
  if FREE_LIST_SIZE ≤ index ∨ batchNum = 0 then
    ⟨0, s, false, false⟩
  else if s.centralFreeList index = 0 then
    match pageAlloc with
    | none => ⟨0, s, true, true⟩
    | some start => refillFromPage index batchNum start s
  else
    let pc := splitWalk s.mem 0 (s.centralFreeList index) batchNum
    ⟨s.centralFreeList index,
      ⟨setIdx s.centralFreeList index pc.2,
        if pc.1 ≠ 0 then writeWord pc.1 0 s.mem else s.mem⟩,
      true, true⟩

/-- The page count `CentralCache::fetchFromPageCache(size)` requests from the
page cache: `SPAN_PAGES` when `size ≤ SPAN_PAGES * PAGE_SIZE`, otherwise
`numPages = ⌈size / PAGE_SIZE⌉`. -/
def fetchFromPageCachePages (size : Nat) : Nat :=
  let numPages := (size + PAGE_SIZE - 1) / PAGE_SIZE
  if size ≤ SPAN_PAGES * PAGE_SIZE then SPAN_PAGES else numPages

/-- The tail-walk loop of `returnRange`:
`end = start; count = 1; while (*end != nullptr && count < size) { end = *end; count++; }`.
The fuel argument is `size - count`, so the walk advances at most `size - 1`
times; the function returns the final `end`. -/
def walkEnd (m : Mem) : Nat → Nat → Nat
  | endp, 0 => endp
  | endp, f + 1 => if m endp = 0 then endp else walkEnd m (m endp) f

/-- Model of `CentralCache::returnRange` (CentralCache.cpp lines 119–154). -/
def returnRange (start size index : Nat) (s : CentralState) : CentralState :=
  if start = 0 ∨ FREE_LIST_SIZE ≤ index then s
  else
    ⟨setIdx s.centralFreeList index start,
      writeWord (walkEnd s.mem start (size - 1)) (s.centralFreeList index) s.mem⟩

/-- The blocks reachable from `head` by following the stored next words, up
to `fuel` nodes (`0` is the null terminator). -/
def chain (m : Mem) : Nat → Nat → List Nat
  | _, 0 => []
  | head, f + 1 => if head = 0 then [] else head :: chain m (m head) f

/-! ## Claims about CentralCache -/

/-- C10: for every class index, `fetchRange index 0` returns null immediately:
the spin lock is never acquired and the state is returned unchanged. -/
theorem C10_zero_batch_null (index : Nat) (pageAlloc : Option Nat) (s : CentralState) :
    fetchRange index 0 pageAlloc s = ⟨0, s, false, false⟩ := by
  unfold fetchRange
  rw [if_pos (Or.inr rfl)]

/-- A concrete memory holding nine class-0 blocks at addresses
`8, 16, …, 72`, each block's first word pointing at the next and the last
word zero. -/
def nineBlockMem : Mem := fun x => if 8 ≤ x ∧ x ≤ 64 ∧ x % 8 = 0 then x + 8 else 0

/-- A central-cache state whose free lists are all empty over `nineBlockMem`. -/
def nineBlockSt : CentralState := ⟨fun _ => 0, nineBlockMem⟩

/-- C2 (evaluation at the failing input): returning a null-terminated list of
nine blocks (addresses `8 … 72`) for class index 0 with block size 8,
`returnRange` stops its tail walk after `size = 8` nodes, splices the list to
the central head at node `64`, and drops block `72`: the resulting class-0
central list holds only eight of the nine returned blocks. -/
theorem C2_truncated_walk :
    chain nineBlockSt.mem 8 20 = [8, 16, 24, 32, 40, 48, 56, 64, 72] ∧
    (returnRange 8 8 0 nineBlockSt).centralFreeList 0 = 8 ∧
    chain (returnRange 8 8 0 nineBlockSt).mem 8 20 = [8, 16, 24, 32, 40, 48, 56, 64] := by
  refine ⟨by decide, by decide, by decide⟩

/-- A central-cache state with every free list empty and every memory word
holding the junk value `7`. -/
def junkSt : CentralState := ⟨fun _ => 0, fun _ => 7⟩

/-- C3 (evaluation at the failing input): for class index 4096 (block size
`32776 > 8 * PAGE_SIZE`) the page layer is asked for `⌈32776/4096⌉ = 9` pages,
which would carve into `9 * 4096 / 32776 = 1` block; but `fetchRange` computes
the block count from the fixed `SPAN_PAGES = 8` constant, getting
`8 * 4096 / 32776 = 0`: it carves nothing, writes nothing, stores nothing in
the central list, and returns the raw span base. -/
theorem C3_carve_uses_span_pages_constant :
    fetchFromPageCachePages ((4096 + 1) * ALIGNMENT) = 9 ∧
    fetchFromPageCachePages ((4096 + 1) * ALIGNMENT) * PAGE_SIZE /
      ((4096 + 1) * ALIGNMENT) = 1 ∧
    SPAN_PAGES * PAGE_SIZE / ((4096 + 1) * ALIGNMENT) = 0 ∧
    (fetchRange 4096 1 (some 999424) junkSt).result = 999424 ∧
    (fetchRange 4096 1 (some 999424) junkSt).state.centralFreeList 4096 = 0 ∧
    (fetchRange 4096 1 (some 999424) junkSt).state.mem 999424 = 7 := by
  refine ⟨by decide, by decide, by decide, by decide, by decide, by decide⟩

/-- C7 (evaluation at the failing input): when the page layer returns null,
`fetchRange` does return null with the lock released and the central list
unchanged; but when the page allocation succeeds and carving produces zero
blocks (class index 4200, block size 33608), `fetchRange` does not return
null — it returns the span base itself. -/
theorem C7_zero_carve_returns_span :
    (fetchRange 4200 2 none junkSt).result = 0 ∧
    (fetchRange 4200 2 none junkSt).lockAcquired = true ∧
    (fetchRange 4200 2 none junkSt).lockReleased = true ∧
    (fetchRange 4200 2 none junkSt).state.centralFreeList 4200 = 0 ∧
    SPAN_PAGES * PAGE_SIZE / ((4200 + 1) * ALIGNMENT) = 0 ∧
    (fetchRange 4200 2 (some 81920) junkSt).result = 81920 := by
  refine ⟨by decide, by decide, by decide, by decide, by decide, by decide⟩

/-- Lemma: `linkBlocks` starting at loop counter `i ≥ 1` never writes below address
`start + (i-1)*sz`. -/
lemma linkBlocks_apply_of_lt (start sz : Nat) :
    ∀ (c i : Nat) (m : Mem) (a : Nat), 1 ≤ i → a < start + (i - 1) * sz →
      linkBlocks start sz i c m a = m a := by
  intro c
  induction c with
  | zero => intro i m a _ _; rfl
  | succ c ih =>
    intro i m a hi ha
    show linkBlocks start sz (i + 1) c
      (writeWord (start + (i - 1) * sz) (start + i * sz) m) a = m a
    have hmono : (i - 1) * sz ≤ i * sz := Nat.mul_le_mul_right sz (by omega)
    rw [ih (i + 1) _ a (by omega) (by simpa using (by omega : a < start + i * sz))]
    unfold writeWord
    rw [if_neg (by omega)]

/-- When `allocBlocks ≤ 1` the caller-list loop writes nothing. -/
lemma refillMemAlloc_of_le_one (start size ab : Nat) (hab : ab ≤ 1) (m : Mem) :
    refillMemAlloc start size ab m = m := by
  unfold refillMemAlloc
  rw [if_neg (by omega)]

/-- When `allocBlocks > 1` the caller-list loop writes a null terminator into
the word at `start + (allocBlocks - 1) * size`. -/
lemma refillMemAlloc_term (start size ab : Nat) (hab : 1 < ab) (m : Mem) :
    refillMemAlloc start size ab m (start + (ab - 1) * size) = 0 := by
  unfold refillMemAlloc
  rw [if_pos hab]
  unfold writeWord
  rw [if_pos rfl]

/-- The remaining-list loop only writes at or above `start + allocBlocks * size`. -/
lemma refillMemRemain_apply_of_lt (start size ab tb : Nat) (m : Mem) (a : Nat)
    (ha : a < start + ab * size) (hab : ab < tb) :
    refillMemRemain start size ab tb m a = m a := by
  unfold refillMemRemain
  have hmono : ab * size ≤ (tb - 1) * size := Nat.mul_le_mul_right size (by omega)
  unfold writeWord
  rw [if_neg (by omega)]
  exact linkBlocks_apply_of_lt start size (tb - 1 - ab) (ab + 1) m a (by omega)
    (by simpa using ha)

/-- Under the refill hypotheses, `fetchRange` runs the refill branch. -/
lemma fetchRange_refill (index batchNum start : Nat) (s : CentralState)
    (h1 : index < FREE_LIST_SIZE) (h2 : 0 < batchNum)
    (h3 : s.centralFreeList index = 0) :
    fetchRange index batchNum (some start) s = refillFromPage index batchNum start s := by
  unfold fetchRange
  rw [if_neg (by omega), if_pos h3]

/-- C9: in the refill path of `fetchRange` (empty class-`index` central list,
page layer returning `start`), with `size = (index+1)*ALIGNMENT`,
`totalBlocks = SPAN_PAGES*PAGE_SIZE/size` and
`allocBlocks = min batchNum totalBlocks`: when `allocBlocks ≤ 1` (one block,
or zero for large classes) no word of the returned block is written — the
word at `start` keeps whatever value the span memory held — and `start` is
returned as the caller's list; only when `allocBlocks > 1` is a terminating
null written, at `start + (allocBlocks - 1) * size`. -/
theorem C9_terminator_only_when_batch_gt_one (index batchNum start : Nat)
    (s : CentralState) (h1 : index < FREE_LIST_SIZE) (h2 : 0 < batchNum)
    (h3 : s.centralFreeList index = 0) :
    (min batchNum (SPAN_PAGES * PAGE_SIZE / ((index + 1) * ALIGNMENT)) ≤ 1 →
      (fetchRange index batchNum (some start) s).state.mem start = s.mem start ∧
      (fetchRange index batchNum (some start) s).result = start) ∧
    (1 < min batchNum (SPAN_PAGES * PAGE_SIZE / ((index + 1) * ALIGNMENT)) →
      (fetchRange index batchNum (some start) s).state.mem
        (start + (min batchNum (SPAN_PAGES * PAGE_SIZE / ((index + 1) * ALIGNMENT)) - 1)
          * ((index + 1) * ALIGNMENT)) = 0) := by
  have hsz : 0 < (index + 1) * ALIGNMENT :=
    Nat.mul_pos (Nat.succ_pos index) (by norm_num [ALIGNMENT])
  rw [fetchRange_refill index batchNum start s h1 h2 h3]
  unfold refillFromPage
  set size := (index + 1) * ALIGNMENT with hsizedef
  set tb := SPAN_PAGES * PAGE_SIZE / size with htbdef
  set ab := min batchNum tb with habdef
  by_cases hc : ab < tb
  · rw [if_pos hc]
    constructor
    · intro hab
      refine ⟨?_, rfl⟩
      have hab1 : ab = 1 := by omega
      show refillMemRemain start size ab tb
        (refillMemAlloc start size ab s.mem) start = s.mem start
      rw [refillMemRemain_apply_of_lt start size ab tb _ start (by rw [hab1]; omega) hc,
        refillMemAlloc_of_le_one start size ab hab s.mem]
    · intro hab
      show refillMemRemain start size ab tb (refillMemAlloc start size ab s.mem)
        (start + (ab - 1) * size) = 0
      have hmul : (ab - 1) * size < ab * size :=
        Nat.mul_lt_mul_of_lt_of_le (by omega) (le_refl size) hsz
      rw [refillMemRemain_apply_of_lt start size ab tb _ _ (by omega) hc]
      exact refillMemAlloc_term start size ab hab s.mem
  · rw [if_neg hc]
    constructor
    · intro hab
      exact ⟨congrArg (· start) (refillMemAlloc_of_le_one start size ab hab s.mem), rfl⟩
    · intro hab
      exact refillMemAlloc_term start size ab hab s.mem

/-- A central-cache state with every free list empty and every memory word
holding the junk value `5`. -/
def junkSt5 : CentralState := ⟨fun _ => 0, fun _ => 5⟩

/-- Witness for C9 at class 0, batch 2, span base 64: `allocBlocks = 2 > 1`
and the terminating null is written at `64 + 1 * 8 = 72`. -/
theorem C9_terminator_only_when_batch_gt_one_witness :
    (fetchRange 0 2 (some 64) junkSt5).state.mem
      (64 + (min 2 (SPAN_PAGES * PAGE_SIZE / ((0 + 1) * ALIGNMENT)) - 1)
        * ((0 + 1) * ALIGNMENT)) = 0 :=
  (C9_terminator_only_when_batch_gt_one 0 2 64 junkSt5 (by decide) (by decide) rfl).2
    (by decide)

/-! ## PageCache (src/src/PageCache.cpp)

`freeSpans_` is a `std::map<size_t, Span*>` from page count to the head of a
singly-linked list of free spans, and `spanMap_` a `std::map<void*, Span*>`
from start address to span.  Both are modelled as association lists sorted by
key.  Heap-allocated `Span` objects are modelled by value: a live span is
identified by its `pageAddr` (unique across live spans), and the C++ mutation
of a span reached through an aliased `spanMap_` pointer is written back
explicitly where it occurs. -/

structure Span where
  pageAddr : Nat
  numPages : Nat
deriving DecidableEq

/-- Model of `std::map` lookup (`find`): the value stored at `key`, if any. -/
def findKey {α : Type} : List (Nat × α) → Nat → Option α
  | [], _ => none
  | (k, v) :: t, key => if key = k then some v else findKey t key

/-- Model of `std::map` insert-or-assign (`m[key] = v`), keeping keys sorted ascending. -/
def setKey {α : Type} : List (Nat × α) → Nat → α → List (Nat × α)
  | [], key, v => [(key, v)]
  | (k, w) :: t, key, v =>
    if key < k then (key, v) :: (k, w) :: t
    else if key = k then (key, v) :: t
    else (k, w) :: setKey t key v

/-- Model of `std::map::erase(key)`. -/
def eraseKey {α : Type} : List (Nat × α) → Nat → List (Nat × α)
  | [], _ => []
  | (k, v) :: t, key => if key = k then t else (k, v) :: eraseKey t key

/-- Model of `std::map::lower_bound(key)`: the first entry, in ascending key order,
whose key is `≥ key`. -/
def lowerBound {α : Type} : List (Nat × α) → Nat → Option (Nat × α)
  | [], _ => none
  | (k, v) :: t, key => if key ≤ k then some (k, v) else lowerBound t key

/-- Page-cache state: `freeSpans_` and `spanMap_`. -/
structure PCState where
  freeSpans : List (Nat × List Span)
  spanMap : List (Nat × Span)
deriving DecidableEq

/-- Head insertion into a free bucket:
`auto& list = freeSpans_[n]; s->next = list; list = s;`
(`operator[]` default-constructs a null head when the key is absent). -/
def bucketPush (fs : List (Nat × List Span)) (n : Nat) (s : Span) :
    List (Nat × List Span) :=
  setKey fs n (s :: (findKey fs n).getD [])

/-- Unlinking the head span from its bucket in `allocateSpan`:
`if (span->next) freeSpans_[k] = span->next; else freeSpans_.erase(it);`. -/
def unlinkHead (fs : List (Nat × List Span)) (k : Nat) (rest : List Span) :
    List (Nat × List Span) :=
  if rest ≠ [] then setKey fs k rest else eraseKey fs k

/-- Model of `PageCache::allocateSpan` (PageCache.cpp lines 9–66).  The `mmap` call in
`systemAlloc` is modelled by the oracle `osAlloc`: the address the OS returns,
`none` for `MAP_FAILED` (in which case the function returns the null pointer
`0`).  The result is `none` exactly when the source would dereference a null
bucket head (`span->next` with `span == nullptr`), which is undefined
behaviour. -/
def allocateSpan (numPages : Nat) (osAlloc : Option Nat) (st : PCState) :
    Option (Nat × PCState) :=
  match lowerBound st.freeSpans numPages with
  | some (_, []) => none
  | some (k, span :: rest) =>
    if numPages < span.numPages then
      some (span.pageAddr,
        ⟨bucketPush (unlinkHead st.freeSpans k rest)
            (span.numPages - numPages)
            ⟨span.pageAddr + numPages * PAGE_SIZE, span.numPages - numPages⟩,
          setKey st.spanMap span.pageAddr ⟨span.pageAddr, numPages⟩⟩)
    else
      some (span.pageAddr,
        ⟨unlinkHead st.freeSpans k rest, setKey st.spanMap span.pageAddr span⟩)
  | none =>
    match osAlloc with
    | none => some (0, st)
    | some addr =>
      some (addr, ⟨st.freeSpans, setKey st.spanMap addr ⟨addr, numPages⟩⟩)

/-- The free-bucket scan of `deallocateSpan`: remove the first occurrence of
`target` from the bucket, reporting whether it was found (`found`). -/
def removeSpan (target : Span) : List Span → Bool × List Span
  | [] => (false, [])
  | s :: t =>
    if s = target then (true, t)
    else ((removeSpan target t).1, s :: (removeSpan target t).2)

/-- Model of `PageCache::deallocateSpan` (PageCache.cpp lines 69–126).  The reference
`auto& nextList = freeSpans_[nextSpan->numPages]` default-inserts an empty
bucket when the key is absent (the inner `setKey … (… ).getD []`); the C++
mutation `span->numPages += nextSpan->numPages` reaches the `spanMap_` entry
for `ptr` by pointer aliasing, written back here as an explicit `setKey`. -/
def deallocateSpan (ptr numPages : Nat) (st : PCState) : PCState :=
  match findKey st.spanMap ptr with
  | none => st
  | some span =>
    match findKey st.spanMap (ptr + numPages * PAGE_SIZE) with
    | some nextSpan =>
      if (removeSpan nextSpan ((findKey st.freeSpans nextSpan.numPages).getD [])).1 then
        ⟨bucketPush
            (setKey (setKey st.freeSpans nextSpan.numPages
                ((findKey st.freeSpans nextSpan.numPages).getD []))
              nextSpan.numPages
              (removeSpan nextSpan ((findKey st.freeSpans nextSpan.numPages).getD [])).2)
            (span.numPages + nextSpan.numPages)
            ⟨span.pageAddr, span.numPages + nextSpan.numPages⟩,
          setKey (eraseKey st.spanMap (ptr + numPages * PAGE_SIZE)) ptr
            ⟨span.pageAddr, span.numPages + nextSpan.numPages⟩⟩
      else
        ⟨bucketPush
            (setKey st.freeSpans nextSpan.numPages
              ((findKey st.freeSpans nextSpan.numPages).getD []))
            span.numPages span,
          st.spanMap⟩
    | none => ⟨bucketPush st.freeSpans span.numPages span, st.spanMap⟩

/-! ### Map lemmas -/

lemma findKey_setKey_self {α : Type} (m : List (Nat × α)) (k : Nat) (v : α) :
    findKey (setKey m k v) k = some v := by
  induction m with
  | nil =>
    show findKey [(k, v)] k = some v
    unfold findKey
    rw [if_pos rfl]
  | cons hd t ih =>
    obtain ⟨k0, v0⟩ := hd
    unfold setKey
    by_cases h1 : k < k0
    · rw [if_pos h1]
      unfold findKey
      rw [if_pos rfl]
    · rw [if_neg h1]
      by_cases h2 : k = k0
      · rw [if_pos h2]
        unfold findKey
        rw [if_pos rfl]
      · rw [if_neg h2]
        unfold findKey
        rw [if_neg h2]
        exact ih

lemma findKey_setKey_ne {α : Type} (m : List (Nat × α)) (k k' : Nat) (v : α)
    (h : k' ≠ k) : findKey (setKey m k v) k' = findKey m k' := by
  induction m with
  | nil =>
    show findKey [(k, v)] k' = findKey [] k'
    unfold findKey
    rw [if_neg h]
    rfl
  | cons hd t ih =>
    obtain ⟨k0, v0⟩ := hd
    unfold setKey
    by_cases h1 : k < k0
    · rw [if_pos h1]
      conv_lhs => unfold findKey
      rw [if_neg h]
    · rw [if_neg h1]
      by_cases h2 : k = k0
      · rw [if_pos h2]
        unfold findKey
        rw [if_neg h, if_neg (h2 ▸ h)]
      · rw [if_neg h2]
        unfold findKey
        by_cases h3 : k' = k0
        · rw [if_pos h3, if_pos h3]
        · rw [if_neg h3, if_neg h3]
          exact ih

lemma findKey_eq_none {α : Type} (m : List (Nat × α)) (k : Nat)
    (h : k ∉ m.map Prod.fst) : findKey m k = none := by
  induction m with
  | nil => rfl
  | cons hd t ih =>
    obtain ⟨k0, v0⟩ := hd
    simp only [List.map_cons, List.mem_cons] at h
    push_neg at h
    unfold findKey
    rw [if_neg h.1]
    exact ih h.2

lemma findKey_eraseKey_self {α : Type} (m : List (Nat × α)) (k : Nat)
    (h : (m.map Prod.fst).Nodup) : findKey (eraseKey m k) k = none := by
  induction m with
  | nil => rfl
  | cons hd t ih =>
    obtain ⟨k0, v0⟩ := hd
    simp only [List.map_cons, List.nodup_cons] at h
    unfold eraseKey
    by_cases he : k = k0
    · rw [if_pos he]
      subst he
      exact findKey_eq_none t k h.1
    · rw [if_neg he]
      unfold findKey
      rw [if_neg he]
      exact ih h.2

lemma removeSpan_found (target : Span) (l : List Span) (h : target ∈ l) :
    (removeSpan target l).1 = true := by
  induction l with
  | nil => cases h
  | cons s t ih =>
    unfold removeSpan
    by_cases he : s = target
    · rw [if_pos he]
    · rw [if_neg he]
      rcases List.mem_cons.mp h with h1 | h2
      · exact absurd h1.symm he
      · exact ih h2

/-! ## Claims about PageCache -/

/-- C8: for every pointer `ptr` that is not a key of `spanMap_`,
`deallocateSpan ptr n` returns the state completely unchanged. -/
theorem C8_unknown_pointer_ignored (st : PCState) (ptr n : Nat)
    (h : findKey st.spanMap ptr = none) : deallocateSpan ptr n st = st := by
  unfold deallocateSpan
  rw [h]

/-- A page-cache state owning one two-page span at 8192; address 4096 is
unknown to it. -/
def pcForeign : PCState := ⟨[], [(8192, ⟨8192, 2⟩)]⟩

/-- Witness for C8: releasing the unknown pointer 4096 leaves `pcForeign`
untouched. -/
theorem C8_unknown_pointer_ignored_witness :
    deallocateSpan 4096 1 pcForeign = pcForeign :=
  C8_unknown_pointer_ignored pcForeign 4096 1 (by decide)

/-- A page-cache state holding one free 8-page span at address 4096, present
in its bucket and in the registry. -/
def pcSplitSt : PCState := ⟨[(8, [⟨4096, 8⟩])], [(4096, ⟨4096, 8⟩)]⟩

/-- C5/C4 split result: the tail span `⟨16384, 5⟩` sits in bucket 5 but has no
`spanMap_` entry. -/
def pcSplitRes : PCState := ⟨[(5, [⟨16384, 5⟩])], [(4096, ⟨4096, 3⟩)]⟩

/-- C4 (counterexample): splitting the free 8-page span at 4096 by
`allocateSpan 3` creates the tail span `⟨16384, 5⟩` and links it into bucket
5, but does NOT record it in `spanMap_`: the registry lookup at 16384 misses,
contradicting the claim that S' is recorded in the span registry. -/
theorem C4_split_tail_unregistered :
    allocateSpan 3 none pcSplitSt = some (4096, pcSplitRes) ∧
    findKey pcSplitRes.freeSpans 5 = some [⟨16384, 5⟩] ∧
    findKey pcSplitRes.spanMap 16384 = none := by
  refine ⟨by decide, by decide, by decide⟩

/-- C4 (amended): when `allocateSpan n` is served from a free span `S` with
`S.numPages > n`, the tail span `S' = ⟨S.pageAddr + n * PAGE_SIZE,
S.numPages − n⟩` is created and linked in as the head of the free-span bucket
keyed by its page count, but it is NOT recorded in `spanMap_` (the registry
at its address is untouched); `S`'s page count is set to exactly `n`, `S` is
recorded in the registry, and `S.pageAddr` is returned. -/
theorem C4_split_behaviour (st : PCState) (n k : Nat) (os : Option Nat)
    (span : Span) (rest : List Span)
    (hlb : lowerBound st.freeSpans n = some (k, span :: rest))
    (hsplit : n < span.numPages) (hn : 0 < n) :
    ∃ st', allocateSpan n os st = some (span.pageAddr, st') ∧
      (∃ t, findKey st'.freeSpans (span.numPages - n) =
        some (⟨span.pageAddr + n * PAGE_SIZE, span.numPages - n⟩ :: t)) ∧
      findKey st'.spanMap span.pageAddr = some ⟨span.pageAddr, n⟩ ∧
      findKey st'.spanMap (span.pageAddr + n * PAGE_SIZE) =
        findKey st.spanMap (span.pageAddr + n * PAGE_SIZE) := by
  have heq : allocateSpan n os st =
      some (span.pageAddr,
        ⟨bucketPush (unlinkHead st.freeSpans k rest) (span.numPages - n)
            ⟨span.pageAddr + n * PAGE_SIZE, span.numPages - n⟩,
          setKey st.spanMap span.pageAddr ⟨span.pageAddr, n⟩⟩) := by
    unfold allocateSpan
    rw [hlb]
    exact if_pos hsplit
  refine ⟨_, heq,
    ⟨(findKey (unlinkHead st.freeSpans k rest) (span.numPages - n)).getD [], ?_⟩, ?_, ?_⟩
  · unfold bucketPush
    exact findKey_setKey_self _ _ _
  · exact findKey_setKey_self _ _ _
  · have hne : span.pageAddr + n * PAGE_SIZE ≠ span.pageAddr := by
      have : 0 < n * PAGE_SIZE := Nat.mul_pos hn (by norm_num [PAGE_SIZE])
      omega
    exact findKey_setKey_ne _ _ _ _ hne

/-- Witness for C4's amended theorem at `pcSplitSt`: `allocateSpan 3` splits
the free 8-page span at 4096; the 5-page tail at 16384 heads bucket 5 and is
absent from the registry. -/
theorem C4_split_behaviour_witness :
    ∃ st', allocateSpan 3 none pcSplitSt = some (4096, st') ∧
      (∃ t, findKey st'.freeSpans 5 = some (⟨16384, 5⟩ :: t)) ∧
      findKey st'.spanMap 4096 = some ⟨4096, 3⟩ ∧
      findKey st'.spanMap 16384 = findKey pcSplitSt.spanMap 16384 :=
  C4_split_behaviour pcSplitSt 3 8 none ⟨4096, 8⟩ [] (by decide) (by decide) (by decide)

/-- Evaluation of `deallocateSpan` when `ptr` is registered, a span is
registered at the forward-neighbour address, and the bucket scan finds it. -/
lemma deallocateSpan_merge_eq (st : PCState) (ptr n : Nat) (span nextSpan : Span)
    (hf : findKey st.spanMap ptr = some span)
    (hnext : findKey st.spanMap (ptr + n * PAGE_SIZE) = some nextSpan)
    (hfound : (removeSpan nextSpan
      ((findKey st.freeSpans nextSpan.numPages).getD [])).1 = true) :
    deallocateSpan ptr n st =
      ⟨bucketPush
          (setKey (setKey st.freeSpans nextSpan.numPages
              ((findKey st.freeSpans nextSpan.numPages).getD []))
            nextSpan.numPages
            (removeSpan nextSpan ((findKey st.freeSpans nextSpan.numPages).getD [])).2)
          (span.numPages + nextSpan.numPages)
          ⟨span.pageAddr, span.numPages + nextSpan.numPages⟩,
        setKey (eraseKey st.spanMap (ptr + n * PAGE_SIZE)) ptr
          ⟨span.pageAddr, span.numPages + nextSpan.numPages⟩⟩ := by
  unfold deallocateSpan
  rw [hf, hnext]
  exact if_pos hfound

/-- Evaluation of `deallocateSpan` when `ptr` is registered but no span is
registered at the forward-neighbour address. -/
lemma deallocateSpan_nonext_eq (st : PCState) (ptr n : Nat) (span : Span)
    (hf : findKey st.spanMap ptr = some span)
    (hnone : findKey st.spanMap (ptr + n * PAGE_SIZE) = none) :
    deallocateSpan ptr n st =
      ⟨bucketPush st.freeSpans span.numPages span, st.spanMap⟩ := by
  unfold deallocateSpan
  rw [hf, hnone]

/-- Evaluation of `deallocateSpan` when a span is registered at the
forward-neighbour address but the bucket scan does not find it (it is not
free). -/
lemma deallocateSpan_notfree_eq (st : PCState) (ptr n : Nat) (span nextSpan : Span)
    (hf : findKey st.spanMap ptr = some span)
    (hnext : findKey st.spanMap (ptr + n * PAGE_SIZE) = some nextSpan)
    (hmiss : (removeSpan nextSpan
      ((findKey st.freeSpans nextSpan.numPages).getD [])).1 = false) :
    deallocateSpan ptr n st =
      ⟨bucketPush
          (setKey st.freeSpans nextSpan.numPages
            ((findKey st.freeSpans nextSpan.numPages).getD []))
          span.numPages span,
        st.spanMap⟩ := by
  unfold deallocateSpan
  rw [hf, hnext]
  exact if_neg (by simp [hmiss])

/-- The freed address differs from its forward-neighbour address. -/
lemma next_addr_ne (ptr n : Nat) (hn : 0 < n) : ptr + n * PAGE_SIZE ≠ ptr := by
  have : 0 < n * PAGE_SIZE := Nat.mul_pos hn (by norm_num [PAGE_SIZE])
  omega

/-- C6: for `deallocateSpan ptr n` with `ptr` registered as span `S`: if a
span `S'` is registered at `ptr + n * PAGE_SIZE` and sits on the free bucket
for its page count, then `S'` is unlinked from that bucket, the freed span's
page count grows by `S'.numPages`, and `S'` is erased from `spanMap_`; in
every case (merge, registered-but-not-free neighbour, or no neighbour) the
resulting freed span is pushed as the new head of the free bucket keyed by
its page count. -/
theorem C6_deallocate_coalesces_forward (st : PCState) (ptr n : Nat)
    (span nextSpan : Span) (hf : findKey st.spanMap ptr = some span)
    (hn : 0 < n) (hpos : 0 < span.numPages)
    (hnodup : (st.spanMap.map Prod.fst).Nodup) :
    (findKey st.spanMap (ptr + n * PAGE_SIZE) = some nextSpan →
      nextSpan ∈ (findKey st.freeSpans nextSpan.numPages).getD [] →
      findKey (deallocateSpan ptr n st).freeSpans nextSpan.numPages =
        some (removeSpan nextSpan
          ((findKey st.freeSpans nextSpan.numPages).getD [])).2 ∧
      findKey (deallocateSpan ptr n st).spanMap (ptr + n * PAGE_SIZE) = none ∧
      findKey (deallocateSpan ptr n st).spanMap ptr =
        some ⟨span.pageAddr, span.numPages + nextSpan.numPages⟩ ∧
      (∃ t, findKey (deallocateSpan ptr n st).freeSpans
          (span.numPages + nextSpan.numPages) =
        some (⟨span.pageAddr, span.numPages + nextSpan.numPages⟩ :: t))) ∧
    (findKey st.spanMap (ptr + n * PAGE_SIZE) = some nextSpan →
      (removeSpan nextSpan ((findKey st.freeSpans nextSpan.numPages).getD [])).1 =
        false →
      ∃ t, findKey (deallocateSpan ptr n st).freeSpans span.numPages =
        some (span :: t)) ∧
    (findKey st.spanMap (ptr + n * PAGE_SIZE) = none →
      ∃ t, findKey (deallocateSpan ptr n st).freeSpans span.numPages =
        some (span :: t)) := by
  refine ⟨?_, ?_, ?_⟩
  · intro hnext hmem
    have hfound := removeSpan_found nextSpan _ hmem
    rw [deallocateSpan_merge_eq st ptr n span nextSpan hf hnext hfound]
    have hkey : nextSpan.numPages ≠ span.numPages + nextSpan.numPages := by omega
    refine ⟨?_, ?_, ?_, ?_⟩
    · show findKey (bucketPush _ _ _) _ = _
      unfold bucketPush
      rw [findKey_setKey_ne _ _ _ _ hkey]
      exact findKey_setKey_self _ _ _
    · show findKey (setKey _ _ _) _ = _
      rw [findKey_setKey_ne _ _ _ _ (next_addr_ne ptr n hn)]
      exact findKey_eraseKey_self _ _ hnodup
    · exact findKey_setKey_self _ _ _
    · exact ⟨_, by unfold bucketPush; exact findKey_setKey_self _ _ _⟩
  · intro hnext hmiss
    rw [deallocateSpan_notfree_eq st ptr n span nextSpan hf hnext hmiss]
    exact ⟨_, by unfold bucketPush; exact findKey_setKey_self _ _ _⟩
  · intro hnone
    rw [deallocateSpan_nonext_eq st ptr n span hf hnone]
    exact ⟨_, by unfold bucketPush; exact findKey_setKey_self _ _ _⟩

/-- A page-cache state with a free 4-page span at 12288 and an allocated
2-page span at 4096 whose forward neighbour is that free span. -/
def pcMergeSt : PCState :=
  ⟨[(4, [⟨12288, 4⟩])], [(4096, ⟨4096, 2⟩), (12288, ⟨12288, 4⟩)]⟩

/-- Witness for C6 at `pcMergeSt`: freeing the 2-page span at 4096 merges the
free 4-page neighbour at 12288 into a 6-page span heading bucket 6. -/
theorem C6_deallocate_coalesces_forward_witness :
    findKey (deallocateSpan 4096 2 pcMergeSt).freeSpans 4 =
      some (removeSpan ⟨12288, 4⟩ ((findKey pcMergeSt.freeSpans 4).getD [])).2 ∧
    findKey (deallocateSpan 4096 2 pcMergeSt).spanMap 12288 = none ∧
    findKey (deallocateSpan 4096 2 pcMergeSt).spanMap 4096 = some ⟨4096, 6⟩ ∧
    (∃ t, findKey (deallocateSpan 4096 2 pcMergeSt).freeSpans 6 =
      some (⟨4096, 6⟩ :: t)) :=
  (C6_deallocate_coalesces_forward pcMergeSt 4096 2 ⟨4096, 2⟩ ⟨12288, 4⟩
    (by decide) (by decide) (by decide) (by decide)).1 (by decide) (by decide)

/-! ### Reachability of page-cache states (for C5) -/

/-- All spans currently sitting in free buckets. -/
def freeSpanList (st : PCState) : List Span :=
  (st.freeSpans.map Prod.snd).flatten

/-- Two free spans are adjacent: one's region ends exactly where the other's
begins. -/
def hasAdjacentFreeSpans (st : PCState) : Prop :=
  ∃ s1 ∈ freeSpanList st, ∃ s2 ∈ freeSpanList st,
    s1.pageAddr + s1.numPages * PAGE_SIZE = s2.pageAddr

instance (st : PCState) : Decidable (hasAdjacentFreeSpans st) := by
  unfold hasAdjacentFreeSpans
  infer_instance

/-- Constraint on the `mmap` oracle: the returned address is nonzero,
page-aligned, and its region is disjoint from every region the page cache
already tracks (registered spans and free spans). -/
def osFresh (a n : Nat) (st : PCState) : Prop :=
  a ≠ 0 ∧ a % PAGE_SIZE = 0 ∧
    (∀ p ∈ st.spanMap.map Prod.snd, a + n * PAGE_SIZE ≤ p.pageAddr ∨
        p.pageAddr + p.numPages * PAGE_SIZE ≤ a) ∧
    (∀ p ∈ freeSpanList st, a + n * PAGE_SIZE ≤ p.pageAddr ∨
        p.pageAddr + p.numPages * PAGE_SIZE ≤ a)

instance (a n : Nat) (st : PCState) : Decidable (osFresh a n st) := by
  unfold osFresh
  infer_instance

/-- Page-cache states reachable from the initial empty state by sequences of
`allocateSpan` and `deallocateSpan` calls, the OS oracle returning only fresh
page-aligned regions. -/
inductive Reach : PCState → Prop
  | init : Reach ⟨[], []⟩
  | alloc (n : Nat) (os : Option Nat) (st : PCState) (r : Nat) (st' : PCState) :
      Reach st → (∀ a, os = some a → osFresh a n st) →
      allocateSpan n os st = some (r, st') → Reach st'
  | dealloc (ptr n : Nat) (st : PCState) :
      Reach st → Reach (deallocateSpan ptr n st)

/-- After `allocateSpan 8` from the OS at 4096. -/
def pcT1 : PCState := ⟨[], [(4096, ⟨4096, 8⟩)]⟩

/-- After freeing that 8-page span. -/
def pcT2 : PCState := ⟨[(8, [⟨4096, 8⟩])], [(4096, ⟨4096, 8⟩)]⟩

/-- After `allocateSpan 3` (split) and freeing the 3-page span again: two
adjacent free spans. -/
def pcBad : PCState :=
  ⟨[(3, [⟨4096, 3⟩]), (5, [⟨16384, 5⟩])], [(4096, ⟨4096, 3⟩)]⟩

/-- C5 (counterexample): the state `pcBad` is reachable by the call sequence
`allocateSpan 8` (OS returns 4096), `deallocateSpan 4096 8`,
`allocateSpan 3` (split: the 5-page tail at 16384 is never registered in
`spanMap_`), `deallocateSpan 4096 3` (forward lookup at 16384 misses, so no
coalescing) — and it contains two adjacent free spans, `⟨4096, 3⟩` and
`⟨16384, 5⟩`, refuting the claimed invariant. -/
theorem C5_adjacent_free_spans_reachable :
    Reach pcBad ∧ hasAdjacentFreeSpans pcBad := by
  constructor
  · have h1 : Reach pcT1 :=
      Reach.alloc 8 (some 4096) ⟨[], []⟩ 4096 pcT1 Reach.init
        (by intro a ha; cases ha; decide) (by decide)
    have h2 : Reach pcT2 := by
      have hd := Reach.dealloc 4096 8 pcT1 h1
      rwa [show deallocateSpan 4096 8 pcT1 = pcT2 from by decide] at hd
    have h3 : Reach pcSplitRes :=
      Reach.alloc 3 none pcT2 4096 pcSplitRes h2 (by intro a ha; cases ha)
        (by decide)
    have h4 := Reach.dealloc 4096 3 pcSplitRes h3
    rwa [show deallocateSpan 4096 3 pcSplitRes = pcBad from by decide] at h4
  · decide

/-- C5 (amended): deallocation does coalesce with the forward neighbour
whenever that neighbour is registered in `spanMap_` and is on its free
bucket — after such a `deallocateSpan` no span is registered at the
neighbour's address any more; but adjacent free spans can coexist (the tail
span of a split is never registered, and a free backward neighbour is never
merged), as `pcBad` shows. -/
theorem C5_forward_merge_removes_neighbour (st : PCState) (ptr n : Nat)
    (span nextSpan : Span) (hf : findKey st.spanMap ptr = some span)
    (hnext : findKey st.spanMap (ptr + n * PAGE_SIZE) = some nextSpan)
    (hmem : nextSpan ∈ (findKey st.freeSpans nextSpan.numPages).getD [])
    (hn : 0 < n) (hnodup : (st.spanMap.map Prod.fst).Nodup) :
    findKey (deallocateSpan ptr n st).spanMap (ptr + n * PAGE_SIZE) = none := by
  rw [deallocateSpan_merge_eq st ptr n span nextSpan hf hnext
    (removeSpan_found nextSpan _ hmem)]
  show findKey (setKey _ _ _) _ = _
  rw [findKey_setKey_ne _ _ _ _ (next_addr_ne ptr n hn)]
  exact findKey_eraseKey_self _ _ hnodup

/-- A state with an allocated 1-page span at 4096 and a free 2-page span at
its forward neighbour 8192. -/
def pcMerge2 : PCState :=
  ⟨[(2, [⟨8192, 2⟩])], [(4096, ⟨4096, 1⟩), (8192, ⟨8192, 2⟩)]⟩

/-- Witness for C5's amended theorem at `pcMerge2`: freeing the span at 4096
absorbs the free neighbour at 8192, whose registration disappears. -/
theorem C5_forward_merge_removes_neighbour_witness :
    findKey (deallocateSpan 4096 1 pcMerge2).spanMap 8192 = none :=
  C5_forward_merge_removes_neighbour pcMerge2 4096 1 ⟨4096, 1⟩ ⟨8192, 2⟩
    (by decide) (by decide) (by decide) (by decide) (by decide)

end MemoryPoolSpec
